import Mathlib

/-!
Verification of the Step Pipeline Runner of the chatops_ai_qa_pipeline
repository, as a shallow embedding of the Python sources:

  * src/bot/state_manager.py   -- ContextStore over MinIO, in-memory maps
  * src/bot/handlers.py        -- run_next_step / _execute_step / _retry_step /
                                  cancel_pipeline / close_pipeline
  * src/pipeline/runner.py     -- PIPELINE_STEPS, initialize_pipeline
  * src/utils/exceptions.py    -- StorageError, LLMError, PipelineError

Python dicts are modelled as association lists (first binding wins, as a
dict has unique keys); the JSON text layer of minio_client.upload_json /
download_json is modelled as the identity on parsed JSON trees, so a MinIO
bucket maps object paths to JSON documents.  Machine integers do not occur
in the modelled code (retry counters and step indices are small Python
ints), so Nat is used throughout.
-/

namespace ChatopsQA

/-- A JSON document, as produced by json.dumps / consumed by json.loads in
src/storage/minio_client.py.  Object entries keep insertion order, as
Python dicts do. -/
inductive Value where
  | null : Value
  | bool (b : Bool) : Value
  | int (n : Int) : Value
  | str (s : String) : Value
  | arr (elems : List Value) : Value
  | obj (entries : List (String × Value)) : Value

/-- The Requirement dataclass of src/models/requirement.py.  The
additional_details field is Optional[Dict[str, Any]] and the priority field
is Optional[str]; dataclass field declaration order is requirement_id,
description, priority, additional_details. -/
structure Requirement where
  requirement_id : String
  description : String
  priority : Option String
  additional_details : Option (List (String × Value))

/-- A pipeline run context: in Python a single dict holding the reserved
keys run_id and step_index, optionally a list of Requirement objects under
the key requirements, and arbitrary step-produced JSON fields under the
remaining keys.  The reserved keys are pulled out as structure fields here;
fields holds the rest of the dict in insertion order. -/
structure RunContext where
  run_id : String
  step_index : Nat
  requirements : Option (List Requirement)
  fields : List (String × Value)

/-- The keys of a run-context dict that the embedding represents as
structure fields rather than entries of RunContext.fields. -/
def reservedKeys : List String := ["run_id", "step_index", "requirements"]

/-- Representation invariant of the embedding: RunContext.fields holds only
non-reserved keys.  In Python this is automatic, because run_id,
step_index, requirements and the open fields live in one dict and a dict
cannot bind the same key twice. -/
def ctxWf (ctx : RunContext) : Prop :=
  ∀ k ∈ ctx.fields.map Prod.fst, k ∉ reservedKeys

instance (ctx : RunContext) : Decidable (ctxWf ctx) := by
  unfold ctxWf; infer_instance

/-! ### Association-list operations (Python dict primitives) -/

/-- Dict lookup: d.get(k) / d[k]. -/
def alookup {κ α : Type} [DecidableEq κ] (k : κ) : List (κ × α) → Option α
  | [] => none
  | (k', v) :: rest => if k' = k then some v else alookup k rest

/-- Dict update: d[k] = v (overwrites the binding, or appends a new one). -/
def aset {κ α : Type} [DecidableEq κ] (k : κ) (v : α) : List (κ × α) → List (κ × α)
  | [] => [(k, v)]
  | (k', v') :: rest => if k' = k then (k, v) :: rest else (k', v') :: aset k v rest

/-- Dict deletion: del d[k] (total here; the callers below only delete keys
they have just checked or inserted). -/
def aerase {κ α : Type} [DecidableEq κ] (k : κ) : List (κ × α) → List (κ × α)
  | [] => []
  | (k', v') :: rest => if k' = k then aerase k rest else (k', v') :: aerase k rest

/-- Option-valued map over a list, failing if any element fails; models a
Python list comprehension whose body may raise. -/
def mapOption {α β : Type} (f : α → Option β) : List α → Option (List β)
  | [] => some []
  | a :: l =>
    match f a, mapOption f l with
    | some b, some bl => some (b :: bl)
    | _, _ => none

/-! ### Error taxonomy (src/utils/exceptions.py) -/

/-- The exception classes caught by the handlers: LLMError, PipelineError,
StorageError. -/
inductive StepError where
  | llm : StepError
  | pipeline : StepError
  | storage : StepError
deriving DecidableEq

/-! ### ContextStore (src/bot/state_manager.py over src/storage/minio_client.py) -/

/-- get_context_minio_path: contexts/\x7brun_id\x7d/context.json. -/
def getContextMinioPath (run_id : String) : String :=
  "contexts/" ++ run_id ++ "/context.json"

/-- The MinIO bucket: object path to stored JSON document. -/
abbrev MinioStore : Type := List (String × Value)

/-- Serialization of one Requirement performed by save_context_to_minio via
req.__dict__: the four dataclass fields, in declaration order. -/
def reqToDict (r : Requirement) : List (String × Value) :=
  [("requirement_id", Value.str r.requirement_id),
   ("description", Value.str r.description),
   ("priority", match r.priority with | none => Value.null | some p => Value.str p),
   ("additional_details",
     match r.additional_details with | none => Value.null | some d => Value.obj d)]

/-- Reconstruction of one Requirement performed by load_context_from_minio
via Requirement(**req_dict): the kwargs must be exactly the dataclass
fields (an unexpected key raises TypeError), with values of the declared
types. -/
def dictToReq (entries : List (String × Value)) : Option Requirement :=
  if entries.map Prod.fst = ["requirement_id", "description", "priority", "additional_details"]
  then
    match alookup "requirement_id" entries, alookup "description" entries,
          alookup "priority" entries, alookup "additional_details" entries with
    | some (Value.str rid), some (Value.str desc), some pv, some dv =>
      match pv, dv with
      | Value.null, Value.null => some ⟨rid, desc, none, none⟩
      | Value.null, Value.obj d => some ⟨rid, desc, none, some d⟩
      | Value.str p, Value.null => some ⟨rid, desc, some p, none⟩
      | Value.str p, Value.obj d => some ⟨rid, desc, some p, some d⟩
      | _, _ => none
    | _, _, _, _ => none
  else none

/-- The JSON document save_context_to_minio uploads: the context dict with
any Requirement list under the key requirements replaced by the list of the
requirements' __dict__ maps. -/
def serializeCtx (ctx : RunContext) : Value :=
  Value.obj
    ([("run_id", Value.str ctx.run_id), ("step_index", Value.int (ctx.step_index : Int))]
      ++ (match ctx.requirements with
          | none => []
          | some reqs =>
            [("requirements", Value.arr (reqs.map (fun r => Value.obj (reqToDict r))))])
      ++ ctx.fields)

/-- Decoding of a stored JSON document back into a RunContext, as performed
by load_context_from_minio: the dict is taken as is, except that a list
under the key requirements is mapped through Requirement(**d).  Documents
that do not carry a string run_id, a non-negative integer step_index, or
whose requirements entry is not a decodable list, are not representable as
a RunContext and decode to none (in Python such a document would make the
handlers crash with an uncaught TypeError / KeyError later). -/
def deserializeCtx (v : Value) : Option RunContext :=
  match v with
  | Value.obj entries =>
    match alookup "run_id" entries, alookup "step_index" entries with
    | some (Value.str rid), some (Value.int n) =>
      if 0 ≤ n then
        let reqs? : Option (Option (List Requirement)) :=
          match alookup "requirements" entries with
          | none => some none
          | some (Value.arr vs) =>
            (mapOption (fun rv =>
              match rv with
              | Value.obj d => dictToReq d
              | _ => none) vs).map some
          | some _ => none
        match reqs? with
        | some reqs =>
          some ⟨rid, n.toNat, reqs,
                entries.filter (fun e => !(reservedKeys.contains e.1))⟩
        | none => none
      else none
    | _, _ => none
  | _ => none

/-- save_context_to_minio: serialize and overwrite the document at the
context's path.  (upload_json only fails on an external S3Error; the pure
store cannot exhibit one, so save always succeeds here.) -/
def save_context_to_minio (ctx : RunContext) (store : MinioStore) : MinioStore :=
  aset (getContextMinioPath ctx.run_id) (serializeCtx ctx) store

/-- Result of load_context_from_minio: the decoded context, a StorageError
(raised by minio_client.download for a missing object), or an undecodable
document (which in Python raises an exception the handlers do not catch). -/
inductive LoadResult where
  | found (ctx : RunContext) : LoadResult
  | storageFailure : LoadResult
  | malformed : LoadResult

/-- load_context_from_minio: download the document at the run's path and
decode it. -/
def load_context_from_minio (store : MinioStore) (run_id : String) : LoadResult :=
  match alookup (getContextMinioPath run_id) store with
  | none => LoadResult.storageFailure
  | some v =>
    match deserializeCtx v with
    | none => LoadResult.malformed
    | some ctx => LoadResult.found ctx

/-- delete_context_from_minio: the body is a bare pass statement (the TODO
in src/bot/state_manager.py lines 82-87 acknowledges the deletion is not
implemented), so the store is returned unchanged. -/
def delete_context_from_minio (store : MinioStore) (_run_id : String) : MinioStore :=
  store

/-! ### In-memory state (src/bot/state_manager.py) and the step runner
(src/bot/handlers.py) -/

/-- The process-wide mutable state the handlers operate on: the MinIO
bucket, pipeline_runs (chat_id to run_id) and step_retry_counts (chat_id to
step_name to retry count). -/
structure SysState where
  store : MinioStore
  pipeline_runs : List (Nat × String)
  step_retry_counts : List (Nat × List (String × Nat))

/-- A pipeline step as the handlers see it: it receives the context dict
and either mutates it and returns, or raises one of the caught exception
classes.  (Python steps mutate ctx in place and return None; the embedding
returns the mutated context.) -/
abbrev StepFn : Type := RunContext → Except StepError RunContext

/-- The PIPELINE_STEPS list of src/pipeline/runner.py: name and step
function, in registration order. -/
abbrev Steps : Type := List (String × StepFn)

/-- The retry count the runner reads: step_retry_counts[chat][step],
defaulting to 0 when either key is unseen. -/
def attemptsSoFar (counts : List (Nat × List (String × Nat))) (chat : Nat)
    (step : String) : Nat :=
  match alookup chat counts with
  | none => 0
  | some m => (alookup step m).getD 0

/-- The entry-creation prologue of _retry_step: insert chat and step keys
with count 0 where missing. -/
def ensureRetryEntry (counts : List (Nat × List (String × Nat))) (chat : Nat)
    (step : String) : List (Nat × List (String × Nat)) :=
  let m := (alookup chat counts).getD []
  let m' := match alookup step m with
            | none => aset step 0 m
            | some _ => m
  aset chat m' counts

/-- step_retry_counts[chat][step] = v, after the keys exist. -/
def setRetryCount (counts : List (Nat × List (String × Nat))) (chat : Nat)
    (step : String) (v : Nat) : List (Nat × List (String × Nat)) :=
  aset chat (aset step v ((alookup chat counts).getD [])) counts

/-- The guarded reset in _execute_step: set the count to 0 only if both
keys are present. -/
def resetRetryIfPresent (counts : List (Nat × List (String × Nat))) (chat : Nat)
    (step : String) : List (Nat × List (String × Nat)) :=
  match alookup chat counts with
  | none => counts
  | some m =>
    match alookup step m with
    | none => counts
    | some _ => aset chat (aset step 0 m) counts

/-- The guarded deletion in the failure paths: del
step_retry_counts[chat][step] only if both keys are present. -/
def deleteRetryIfPresent (counts : List (Nat × List (String × Nat))) (chat : Nat)
    (step : String) : List (Nat × List (String × Nat)) :=
  match alookup chat counts with
  | none => counts
  | some m =>
    match alookup step m with
    | none => counts
    | some _ => aset chat (aerase step m) counts

/-- NextBackoffDelay: the expression 1 * (2 ** current_retry) at
src/bot/handlers.py line 256, in seconds. -/
def nextBackoffDelay (attempt : Nat) : Nat :=
  1 * 2 ^ attempt

/-- max_retries = 3 at src/bot/handlers.py line 245. -/
def maxRetries : Nat := 3

/-- The user-visible outcome of one handler invocation, including the
values that parametrize the chat notifications.  retryFailed carries the
attempt count read before the failure and the delay passed to time.sleep;
uncaughtError marks the paths where a stored document cannot be decoded
and the Python handler would die on an exception it does not catch. -/
inductive Outcome where
  | stateNotFound : Outcome
  | uncaughtError : Outcome
  | alreadyCompleted : Outcome
  | stepCompleted (step_name : String) : Outcome
  | stepFailed (step_name : String) (e : StepError) : Outcome
  | retryFailed (step_name : String) (attempt : Nat) (delay : Nat) (e : StepError) : Outcome
  | retriesExhausted (step_name : String) : Outcome
  | cancelled : Outcome
  | nothingToCancel : Outcome
  | closed : Outcome

/-- Result of one handler invocation: the new process state, the outcome,
and the names of the step functions that were actually called (used to
state the no-invocation properties). -/
structure StepResult where
  state : SysState
  outcome : Outcome
  invoked : List String

/-- _execute_step (src/bot/handlers.py lines 178-228): run the step; on
success bump step_index on the mutated context, save it, and reset the
step's retry count if present; on any caught error (LLMError,
PipelineError, StorageError alike) tear down: unbind the chat, call the
(no-op) context deletion, and drop the step's retry count if present. -/
def _execute_step (chat_id : Nat) (ctx : RunContext) (step_name : String)
    (step_function : StepFn) (s : SysState) : StepResult :=
  let run_id := ctx.run_id
  match step_function ctx with
  | Except.ok stepped =>
    let advanced : RunContext := { stepped with step_index := stepped.step_index + 1 }
    ⟨{ s with store := save_context_to_minio advanced s.store,
              step_retry_counts := resetRetryIfPresent s.step_retry_counts chat_id step_name },
     Outcome.stepCompleted step_name, [step_name]⟩
  | Except.error e =>
    ⟨{ s with pipeline_runs := aerase chat_id s.pipeline_runs,
              store := delete_context_from_minio s.store run_id,
              step_retry_counts := deleteRetryIfPresent s.step_retry_counts chat_id step_name },
     Outcome.stepFailed step_name e, [step_name]⟩

/-- _retry_step (src/bot/handlers.py lines 230-318): ensure the retry-count
entries exist, read the current count and compute the backoff delay; below
max_retries run the step (success saves the advanced context and zeroes the
count; a caught error increments the count and sleeps the delay); at or
above max_retries do not run the step and tear the run down. -/
def _retry_step (chat_id : Nat) (ctx : RunContext) (step_name : String)
    (step_function : StepFn) (s : SysState) : StepResult :=
  let run_id := ctx.run_id
  let counts := ensureRetryEntry s.step_retry_counts chat_id step_name
  let current_retry := attemptsSoFar counts chat_id step_name
  let delay := nextBackoffDelay current_retry
  if current_retry < maxRetries then
    match step_function ctx with
    | Except.ok stepped =>
      let advanced : RunContext := { stepped with step_index := stepped.step_index + 1 }
      ⟨{ s with store := save_context_to_minio advanced s.store,
                step_retry_counts := setRetryCount counts chat_id step_name 0 },
       Outcome.stepCompleted step_name, [step_name]⟩
    | Except.error e =>
      ⟨{ s with step_retry_counts := setRetryCount counts chat_id step_name (current_retry + 1) },
       Outcome.retryFailed step_name current_retry delay e, [step_name]⟩
  else
    ⟨{ s with pipeline_runs := aerase chat_id s.pipeline_runs,
              store := delete_context_from_minio s.store run_id,
              step_retry_counts := deleteRetryIfPresent counts chat_id step_name },
     Outcome.retriesExhausted step_name, []⟩

/-- run_next_step (src/bot/handlers.py lines 138-176): load the context (a
StorageError unbinds the chat and reports missing state; an undecodable
document would crash the handler); rebind the chat to the run; if
step_index is past the end of PIPELINE_STEPS report completion, unbind and
call the (no-op) deletion without touching retry counts; otherwise resolve
the current step and dispatch on is_retry. -/
def run_next_step (steps : Steps) (chat_id : Nat) (run_id : String)
    (is_retry : Bool) (s : SysState) : StepResult :=
  match load_context_from_minio s.store run_id with
  | LoadResult.storageFailure =>
    ⟨{ s with pipeline_runs := aerase chat_id s.pipeline_runs },
     Outcome.stateNotFound, []⟩
  | LoadResult.malformed => ⟨s, Outcome.uncaughtError, []⟩
  | LoadResult.found ctx =>
    match steps.get? ctx.step_index with
    | none =>
      ⟨{ s with pipeline_runs := aerase chat_id (aset chat_id run_id s.pipeline_runs),
                store := delete_context_from_minio s.store run_id },
       Outcome.alreadyCompleted, []⟩
    | some (step_name, step_function) =>
      match is_retry with
      | true =>
        _retry_step chat_id ctx step_name step_function
          { s with pipeline_runs := aset chat_id run_id s.pipeline_runs }
      | false =>
        _execute_step chat_id ctx step_name step_function
          { s with pipeline_runs := aset chat_id run_id s.pipeline_runs }

/-- cancel_pipeline (src/bot/handlers.py lines 320-340): only when the chat
is currently bound to exactly this run_id, unbind it, drop all of the
chat's retry counts, and call the (no-op) context deletion; otherwise
answer that there is nothing to cancel and change nothing. -/
def cancel_pipeline (chat_id : Nat) (run_id : String) (s : SysState) : StepResult :=
  if alookup chat_id s.pipeline_runs = some run_id then
    ⟨{ store := delete_context_from_minio s.store run_id,
       pipeline_runs := aerase chat_id s.pipeline_runs,
       step_retry_counts := aerase chat_id s.step_retry_counts },
     Outcome.cancelled, []⟩
  else
    ⟨s, Outcome.nothingToCancel, []⟩

/-- close_pipeline (src/bot/handlers.py lines 342-362): same guarded
teardown as cancel_pipeline, but the confirmation is sent either way. -/
def close_pipeline (chat_id : Nat) (run_id : String) (s : SysState) : StepResult :=
  if alookup chat_id s.pipeline_runs = some run_id then
    ⟨{ store := delete_context_from_minio s.store run_id,
       pipeline_runs := aerase chat_id s.pipeline_runs,
       step_retry_counts := aerase chat_id s.step_retry_counts },
     Outcome.closed, []⟩
  else
    ⟨s, Outcome.closed, []⟩

/-- The operations of the core, for properties quantifying over whole
call sequences. -/
inductive Op where
  | advance (chat_id : Nat) (run_id : String) (is_retry : Bool) : Op
  | cancel (chat_id : Nat) (run_id : String) : Op
  | close (chat_id : Nat) (run_id : String) : Op

/-- Dispatch one operation. -/
def applyOp (steps : Steps) (op : Op) (s : SysState) : StepResult :=
  match op with
  | Op.advance chat_id run_id is_retry => run_next_step steps chat_id run_id is_retry s
  | Op.cancel chat_id run_id => cancel_pipeline chat_id run_id s
  | Op.close chat_id run_id => close_pipeline chat_id run_id s

/-- Fold a sequence of operations over the state. -/
def runOps (steps : Steps) (ops : List Op) (s : SysState) : SysState :=
  ops.foldl (fun st op => (applyOp steps op st).state) s

/-- The step_index recorded in the store for a run, when the run's
document is present and decodable. -/
def persistedStepIndex (s : SysState) (run_id : String) : Option Nat :=
  match load_context_from_minio s.store run_id with
  | LoadResult.found ctx => some ctx.step_index
  | _ => none

/-- The contract the registered step functions of
src/pipeline/runner.py satisfy: a step mutates only its own output fields
of the context dict, so run_id and step_index come back unchanged (no step
under src/pipeline/steps/ writes either key) and the result is again a
representable context. -/
def StepsWf (steps : Steps) : Prop :=
  ∀ p ∈ steps, ∀ c c', p.2 c = Except.ok c' →
    c'.run_id = c.run_id ∧ c'.step_index = c.step_index ∧ ctxWf c'

/-- Stores reachable by the runner: every stored document decodes (if at
all) to a context whose run_id matches the path it is stored under, since
save_context_to_minio always writes a document to its own context's
path. -/
def StoreWf (store : MinioStore) : Prop :=
  ∀ p v, alookup p store = some v →
    ∀ ctx, deserializeCtx v = some ctx → p = getContextMinioPath ctx.run_id

/-! ### Association-list laws -/

theorem alookup_aset_self {κ α : Type} [DecidableEq κ] (k : κ) (v : α) (l : List (κ × α)) :
    alookup k (aset k v l) = some v := by
  induction l with
  | nil => simp [aset, alookup]
  | cons p rest ih =>
    by_cases h : p.1 = k
    · simp [aset, h, alookup]
    · simp [aset, h, alookup, ih]

theorem alookup_aset_of_ne {κ α : Type} [DecidableEq κ] {k k' : κ} (v : α) (l : List (κ × α))
    (h : k' ≠ k) : alookup k' (aset k v l) = alookup k' l := by
  induction l with
  | nil => simp [aset, alookup, h.symm]
  | cons p rest ih =>
    by_cases hp : p.1 = k
    · simp [aset, hp, alookup, h.symm, hp ▸ h.symm]
    · simp [aset, hp, alookup, ih]

theorem alookup_aerase_self {κ α : Type} [DecidableEq κ] (k : κ) (l : List (κ × α)) :
    alookup k (aerase k l) = none := by
  induction l with
  | nil => simp [aerase, alookup]
  | cons p rest ih =>
    by_cases h : p.1 = k
    · simp [aerase, h, ih]
    · simp [aerase, h, alookup, ih]

theorem alookup_aerase_of_ne {κ α : Type} [DecidableEq κ] {k k' : κ} (l : List (κ × α))
    (h : k' ≠ k) : alookup k' (aerase k l) = alookup k' l := by
  induction l with
  | nil => simp [aerase]
  | cons p rest ih =>
    by_cases hp : p.1 = k
    · simp [aerase, hp, alookup, ih, Ne.symm h]
    · simp [aerase, hp, alookup, ih]

theorem alookup_eq_none_of_not_mem {α : Type} (k : String) (l : List (String × α))
    (h : k ∉ l.map Prod.fst) : alookup k l = none := by
  induction l with
  | nil => rfl
  | cons p rest ih =>
    simp only [List.map_cons, List.mem_cons, not_or] at h
    simp [alookup, Ne.symm h.1, ih h.2]

/-! ### Serialization roundtrip -/

theorem dictToReq_reqToDict (r : Requirement) : dictToReq (reqToDict r) = some r := by
  rcases r with ⟨rid, desc, pr, ad⟩
  cases pr <;> cases ad <;> rfl

theorem mapOption_decode_reqs (reqs : List Requirement) :
    mapOption (fun rv =>
      match rv with
      | Value.obj d => dictToReq d
      | _ => none) (reqs.map (fun r => Value.obj (reqToDict r))) = some reqs := by
  induction reqs with
  | nil => rfl
  | cons r rest ih => simp [mapOption, dictToReq_reqToDict, ih]

theorem ctxWf_lookup_none (ctx : RunContext) (h : ctxWf ctx) (k : String)
    (hk : k ∈ reservedKeys) : alookup k ctx.fields = none := by
  apply alookup_eq_none_of_not_mem
  intro hmem
  exact h k hmem hk

theorem ctxWf_filter_fields (ctx : RunContext) (h : ctxWf ctx) :
    ctx.fields.filter (fun e => !(reservedKeys.contains e.1)) = ctx.fields := by
  rw [List.filter_eq_self]
  intro e he
  have : e.1 ∉ reservedKeys := h e.1 (List.mem_map_of_mem Prod.fst he)
  simpa using this

theorem serialize_roundtrip (ctx : RunContext) (h : ctxWf ctx) :
    deserializeCtx (serializeCtx ctx) = some ctx := by
  rcases ctx with ⟨rid, idx, reqs, fields⟩
  have hreq : alookup "requirements" fields = none :=
    ctxWf_lookup_none ⟨rid, idx, reqs, fields⟩ h "requirements" (by simp [reservedKeys])
  have hfil : fields.filter (fun e => !(reservedKeys.contains e.1)) = fields :=
    ctxWf_filter_fields ⟨rid, idx, reqs, fields⟩ h
  have hk : ∀ a : String, ∀ b : Value, (a, b) ∈ fields →
      ¬a = "run_id" ∧ ¬a = "step_index" ∧ ¬a = "requirements" := by
    intro a b hab
    have := h a (List.mem_map_of_mem Prod.fst hab)
    simpa [reservedKeys] using this
  cases reqs with
  | none =>
    simp [serializeCtx, deserializeCtx, alookup, hreq, hfil, reservedKeys]
    exact hk
  | some rs =>
    simp [serializeCtx, deserializeCtx, alookup, mapOption_decode_reqs, hfil, reservedKeys]
    exact hk

theorem save_load_same (store : MinioStore) (ctx : RunContext) (h : ctxWf ctx) :
    load_context_from_minio (save_context_to_minio ctx store) ctx.run_id
      = LoadResult.found ctx := by
  unfold load_context_from_minio save_context_to_minio
  rw [alookup_aset_self]
  simp [serialize_roundtrip ctx h]



theorem ctxWf_set_index (c : RunContext) (n : Nat) (h : ctxWf c) :
    ctxWf { c with step_index := n } := h

theorem load_found_elim (store : MinioStore) (rid : String) (ctx : RunContext)
    (h : load_context_from_minio store rid = LoadResult.found ctx) :
    ∃ v, alookup (getContextMinioPath rid) store = some v ∧ deserializeCtx v = some ctx := by
  unfold load_context_from_minio at h
  cases hv : alookup (getContextMinioPath rid) store with
  | none => rw [hv] at h; cases h
  | some v =>
    rw [hv] at h
    dsimp only at h
    cases hd : deserializeCtx v with
    | none => rw [hd] at h; cases h
    | some c => rw [hd] at h; cases h; exact ⟨v, rfl, hd⟩

theorem attemptsSoFar_ensure (counts : List (Nat × List (String × Nat))) (chat : Nat)
    (step : String) :
    attemptsSoFar (ensureRetryEntry counts chat step) chat step
      = attemptsSoFar counts chat step := by
  unfold attemptsSoFar ensureRetryEntry
  cases hc : alookup chat counts with
  | none =>
    simp [hc, alookup_aset_self, alookup, aset]
  | some m =>
    cases hs : alookup step m with
    | none => simp [hc, hs, alookup_aset_self, alookup_aset_self]
    | some c => simp [hc, hs, alookup_aset_self]

theorem execute_step_ok (chat : Nat) (ctx stepped : RunContext) (name : String) (f : StepFn)
    (s : SysState) (hf : f ctx = Except.ok stepped) :
    _execute_step chat ctx name f s =
      ⟨{ s with
           store := save_context_to_minio
             { stepped with step_index := stepped.step_index + 1 } s.store,
           step_retry_counts := resetRetryIfPresent s.step_retry_counts chat name },
       Outcome.stepCompleted name, [name]⟩ := by
  unfold _execute_step
  rw [hf]

theorem execute_step_err (chat : Nat) (ctx : RunContext) (name : String) (f : StepFn)
    (s : SysState) (e : StepError) (hf : f ctx = Except.error e) :
    _execute_step chat ctx name f s =
      ⟨{ s with
           pipeline_runs := aerase chat s.pipeline_runs,
           store := delete_context_from_minio s.store ctx.run_id,
           step_retry_counts := deleteRetryIfPresent s.step_retry_counts chat name },
       Outcome.stepFailed name e, [name]⟩ := by
  unfold _execute_step
  rw [hf]

theorem retry_step_ok (chat : Nat) (ctx stepped : RunContext) (name : String) (f : StepFn)
    (s : SysState)
    (ha : attemptsSoFar s.step_retry_counts chat name < maxRetries)
    (hf : f ctx = Except.ok stepped) :
    _retry_step chat ctx name f s =
      ⟨{ s with
           store := save_context_to_minio
             { stepped with step_index := stepped.step_index + 1 } s.store,
           step_retry_counts :=
             setRetryCount (ensureRetryEntry s.step_retry_counts chat name) chat name 0 },
       Outcome.stepCompleted name, [name]⟩ := by
  simp [_retry_step, attemptsSoFar_ensure, ha, hf]

theorem retry_step_err (chat : Nat) (ctx : RunContext) (name : String) (f : StepFn)
    (s : SysState) (e : StepError)
    (ha : attemptsSoFar s.step_retry_counts chat name < maxRetries)
    (hf : f ctx = Except.error e) :
    _retry_step chat ctx name f s =
      ⟨{ s with
           step_retry_counts :=
             setRetryCount (ensureRetryEntry s.step_retry_counts chat name) chat name
               (attemptsSoFar s.step_retry_counts chat name + 1) },
       Outcome.retryFailed name (attemptsSoFar s.step_retry_counts chat name)
         (nextBackoffDelay (attemptsSoFar s.step_retry_counts chat name)) e, [name]⟩ := by
  simp [_retry_step, attemptsSoFar_ensure, ha, hf]

theorem retry_step_exhausted (chat : Nat) (ctx : RunContext) (name : String) (f : StepFn)
    (s : SysState)
    (ha : ¬ attemptsSoFar s.step_retry_counts chat name < maxRetries) :
    _retry_step chat ctx name f s =
      ⟨{ s with
           pipeline_runs := aerase chat s.pipeline_runs,
           store := delete_context_from_minio s.store ctx.run_id,
           step_retry_counts :=
             deleteRetryIfPresent (ensureRetryEntry s.step_retry_counts chat name) chat name },
       Outcome.retriesExhausted name, []⟩ := by
  simp [_retry_step, attemptsSoFar_ensure, ha]



theorem run_next_step_store (steps : Steps) (chat : Nat) (rid : String) (retry : Bool)
    (s : SysState) :
    (run_next_step steps chat rid retry s).state.store = s.store ∨
    ∃ ctx name f stepped,
      load_context_from_minio s.store rid = LoadResult.found ctx ∧
      steps.get? ctx.step_index = some (name, f) ∧
      f ctx = Except.ok stepped ∧
      (run_next_step steps chat rid retry s).state.store =
        save_context_to_minio { stepped with step_index := stepped.step_index + 1 } s.store := by
  unfold run_next_step
  cases hload : load_context_from_minio s.store rid with
  | storageFailure => left; rfl
  | malformed => left; rfl
  | found ctx =>
    dsimp only
    cases hget : steps.get? ctx.step_index with
    | none => left; rfl
    | some p =>
      obtain ⟨name, f⟩ := p
      cases retry with
      | false =>
        cases hf : f ctx with
        | ok stepped =>
          right
          refine ⟨ctx, name, f, stepped, rfl, hget, hf, ?_⟩
          simp [_execute_step, hf]
        | error e =>
          left
          simp [_execute_step, hf, delete_context_from_minio]
      | true =>
        by_cases ha : attemptsSoFar s.step_retry_counts chat name < maxRetries
        · cases hf : f ctx with
          | ok stepped =>
            right
            refine ⟨ctx, name, f, stepped, rfl, hget, hf, ?_⟩
            simp [_retry_step, attemptsSoFar_ensure, ha, hf]
          | error e =>
            left
            simp [_retry_step, attemptsSoFar_ensure, ha, hf]
        · left
          simp [_retry_step, attemptsSoFar_ensure, ha, delete_context_from_minio]



theorem run_next_step_completed (steps : Steps) (chat : Nat) (rid : String) (retry : Bool)
    (s : SysState) (name : String)
    (hout : (run_next_step steps chat rid retry s).outcome = Outcome.stepCompleted name) :
    ∃ ctx f stepped,
      load_context_from_minio s.store rid = LoadResult.found ctx ∧
      steps.get? ctx.step_index = some (name, f) ∧
      f ctx = Except.ok stepped ∧
      (run_next_step steps chat rid retry s).state.store =
        save_context_to_minio { stepped with step_index := stepped.step_index + 1 } s.store ∧
      alookup chat (run_next_step steps chat rid retry s).state.pipeline_runs = some rid := by
  unfold run_next_step at hout ⊢
  cases hload : load_context_from_minio s.store rid with
  | storageFailure => rw [hload] at hout; cases hout
  | malformed => rw [hload] at hout; cases hout
  | found ctx =>
    rw [hload] at hout
    dsimp only at hout ⊢
    cases hget : steps.get? ctx.step_index with
    | none => rw [hget] at hout; cases hout
    | some p =>
      obtain ⟨nm, f⟩ := p
      rw [hget] at hout
      cases retry with
      | false =>
        cases hf : f ctx with
        | ok stepped =>
          simp [_execute_step, hf] at hout
          subst hout
          refine ⟨ctx, f, stepped, rfl, hget, hf, ?_, ?_⟩
          · simp [_execute_step, hf]
          · simp [_execute_step, hf, alookup_aset_self]
        | error e =>
          simp [_execute_step, hf] at hout
      | true =>
        by_cases ha : attemptsSoFar s.step_retry_counts chat nm < maxRetries
        · cases hf : f ctx with
          | ok stepped =>
            simp [_retry_step, attemptsSoFar_ensure, ha, hf] at hout
            subst hout
            refine ⟨ctx, f, stepped, rfl, hget, hf, ?_, ?_⟩
            · simp [_retry_step, attemptsSoFar_ensure, ha, hf]
            · simp [_retry_step, attemptsSoFar_ensure, ha, hf, alookup_aset_self]
          | error e =>
            simp [_retry_step, attemptsSoFar_ensure, ha, hf] at hout
        · simp [_retry_step, attemptsSoFar_ensure, ha] at hout



theorem load_congr_path (st : MinioStore) (r1 r2 : String)
    (h : getContextMinioPath r1 = getContextMinioPath r2) :
    load_context_from_minio st r1 = load_context_from_minio st r2 := by
  unfold load_context_from_minio
  rw [h]

theorem persisted_congr (s s' : SysState) (h : s'.store = s.store) (rid : String) :
    persistedStepIndex s' rid = persistedStepIndex s rid := by
  unfold persistedStepIndex load_context_from_minio
  rw [h]

theorem persisted_elim (s : SysState) (rid : String) (i : Nat)
    (h : persistedStepIndex s rid = some i) :
    ∃ ctx, load_context_from_minio s.store rid = LoadResult.found ctx ∧ ctx.step_index = i := by
  unfold persistedStepIndex at h
  cases hl : load_context_from_minio s.store rid with
  | found c => rw [hl] at h; exact ⟨c, rfl, by cases h; rfl⟩
  | storageFailure => rw [hl] at h; cases h
  | malformed => rw [hl] at h; cases h

theorem storeWf_save (store : MinioStore) (h : StoreWf store) (ctx : RunContext)
    (hwf : ctxWf ctx) : StoreWf (save_context_to_minio ctx store) := by
  intro p v hp c hdc
  by_cases hpe : p = getContextMinioPath ctx.run_id
  · subst hpe
    rw [save_context_to_minio, alookup_aset_self] at hp
    cases hp
    rw [serialize_roundtrip ctx hwf] at hdc
    cases hdc
    rfl
  · rw [save_context_to_minio, alookup_aset_of_ne _ _ hpe] at hp
    exact h p v hp c hdc

theorem storeWf_applyOp (steps : Steps) (hsteps : StepsWf steps) (op : Op) (s : SysState)
    (h : StoreWf s.store) : StoreWf (applyOp steps op s).state.store := by
  cases op with
  | cancel chat rid =>
    have hstore : (cancel_pipeline chat rid s).state.store = s.store := by
      unfold cancel_pipeline
      split <;> rfl
    rw [show applyOp steps (Op.cancel chat rid) s = cancel_pipeline chat rid s from rfl, hstore]
    exact h
  | close chat rid =>
    have hstore : (close_pipeline chat rid s).state.store = s.store := by
      unfold close_pipeline
      split <;> rfl
    rw [show applyOp steps (Op.close chat rid) s = close_pipeline chat rid s from rfl, hstore]
    exact h
  | advance chat rid retry =>
    rcases run_next_step_store steps chat rid retry s with hunch | ⟨ctx, name, f, stepped, _, hget, hf, hsave⟩
    · rw [show (applyOp steps (Op.advance chat rid retry) s).state.store
          = (run_next_step steps chat rid retry s).state.store from rfl, hunch]
      exact h
    · obtain ⟨_, _, hwf⟩ := hsteps _ (List.get?_mem hget) _ _ hf
      rw [show (applyOp steps (Op.advance chat rid retry) s).state.store
          = (run_next_step steps chat rid retry s).state.store from rfl, hsave]
      exact storeWf_save s.store h _ (ctxWf_set_index stepped _ hwf)



theorem persisted_mono_op (steps : Steps) (hsteps : StepsWf steps) (op : Op) (s : SysState)
    (hstore : StoreWf s.store) (rid : String) (i : Nat)
    (hi : persistedStepIndex s rid = some i) :
    ∃ j, persistedStepIndex (applyOp steps op s).state rid = some j ∧ i ≤ j := by
  cases op with
  | cancel chat orid =>
    have hst : (cancel_pipeline chat orid s).state.store = s.store := by
      unfold cancel_pipeline
      split <;> rfl
    refine ⟨i, ?_, le_refl i⟩
    rw [show applyOp steps (Op.cancel chat orid) s = cancel_pipeline chat orid s from rfl]
    rw [persisted_congr s _ hst]
    exact hi
  | close chat orid =>
    have hst : (close_pipeline chat orid s).state.store = s.store := by
      unfold close_pipeline
      split <;> rfl
    refine ⟨i, ?_, le_refl i⟩
    rw [show applyOp steps (Op.close chat orid) s = close_pipeline chat orid s from rfl]
    rw [persisted_congr s _ hst]
    exact hi
  | advance chat orid retry =>
    rw [show applyOp steps (Op.advance chat orid retry) s
        = run_next_step steps chat orid retry s from rfl]
    rcases run_next_step_store steps chat orid retry s with
      hunch | ⟨ctx, name, f, stepped, hload, hget, hf, hsave⟩
    · refine ⟨i, ?_, le_refl i⟩
      rw [persisted_congr s _ hunch]
      exact hi
    · obtain ⟨hrun, hidx, hwf⟩ := hsteps _ (List.get?_mem hget) _ _ hf
      obtain ⟨ctxU, hlU, hiU⟩ := persisted_elim s rid i hi
      obtain ⟨u, hu, hdu⟩ := load_found_elim _ _ _ hlU
      obtain ⟨w, hw, hdw⟩ := load_found_elim _ _ _ hload
      have hpathU : getContextMinioPath rid = getContextMinioPath ctxU.run_id :=
        hstore _ _ hu _ hdu
      have hpathO : getContextMinioPath orid = getContextMinioPath ctx.run_id :=
        hstore _ _ hw _ hdw
      have hadvrun : ({ stepped with step_index := stepped.step_index + 1 } : RunContext).run_id
          = ctx.run_id := hrun
      by_cases hpq : getContextMinioPath rid = getContextMinioPath ctx.run_id
      · -- the save overwrites the very document rid is read from
        have hsame : getContextMinioPath rid = getContextMinioPath orid := by
          rw [hpq, hpathO]
        have huw : u = w := by
          have := hu
          rw [hsame, hw] at this
          exact (Option.some.inj this).symm
        have hctxU : ctxU = ctx := by
          rw [huw, hdw] at hdu
          exact (Option.some.inj hdu).symm
        refine ⟨i + 1, ?_, Nat.le_succ i⟩
        unfold persistedStepIndex
        rw [hsave]
        have hpath2 : getContextMinioPath rid
            = getContextMinioPath
                ({ stepped with step_index := stepped.step_index + 1 } : RunContext).run_id := by
          rw [hadvrun]
          exact hpq
        rw [load_congr_path _ _ _ hpath2,
            save_load_same s.store _ (ctxWf_set_index stepped _ hwf)]
        dsimp only
        rw [hidx, ← hiU, hctxU]
      · refine ⟨i, ?_, le_refl i⟩
        unfold persistedStepIndex
        rw [hsave]
        unfold save_context_to_minio load_context_from_minio
        rw [alookup_aset_of_ne _ _ (by rw [hadvrun]; exact hpq)]
        have := persisted_elim s rid i hi
        unfold persistedStepIndex load_context_from_minio at hi
        exact hi

theorem persisted_mono_ops (steps : Steps) (hsteps : StepsWf steps) (ops : List Op)
    (s : SysState) (hstore : StoreWf s.store) (rid : String) (i : Nat)
    (hi : persistedStepIndex s rid = some i) :
    ∃ j, persistedStepIndex (runOps steps ops s) rid = some j ∧ i ≤ j := by
  induction ops generalizing s i with
  | nil => exact ⟨i, hi, le_refl i⟩
  | cons op rest ih =>
    obtain ⟨j, hj, hij⟩ := persisted_mono_op steps hsteps op s hstore rid i hi
    obtain ⟨k, hk, hjk⟩ :=
      ih (applyOp steps op s).state (storeWf_applyOp steps hsteps op s hstore) j hj
    refine ⟨k, ?_, le_trans hij hjk⟩
    simpa [runOps, List.foldl] using hk



theorem advance_success_incr (steps : Steps) (hsteps : StepsWf steps) (chat : Nat)
    (rid : String) (retry : Bool) (s : SysState) (hstore : StoreWf s.store) (name : String)
    (hout : (run_next_step steps chat rid retry s).outcome = Outcome.stepCompleted name) :
    ∃ i, persistedStepIndex s rid = some i ∧
      persistedStepIndex (run_next_step steps chat rid retry s).state rid = some (i + 1) := by
  obtain ⟨ctx, f, stepped, hload, hget, hf, hsave, hbind⟩ :=
    run_next_step_completed steps chat rid retry s name hout
  obtain ⟨hrun, hidx, hwf⟩ := hsteps _ (List.get?_mem hget) _ _ hf
  obtain ⟨w, hw, hdw⟩ := load_found_elim _ _ _ hload
  have hpath : getContextMinioPath rid = getContextMinioPath ctx.run_id :=
    hstore _ _ hw _ hdw
  refine ⟨ctx.step_index, ?_, ?_⟩
  · unfold persistedStepIndex
    rw [hload]
  · unfold persistedStepIndex
    rw [hsave]
    have hpath2 : getContextMinioPath rid
        = getContextMinioPath
            ({ stepped with step_index := stepped.step_index + 1 } : RunContext).run_id := by
      rw [show ({ stepped with step_index := stepped.step_index + 1 } : RunContext).run_id
          = ctx.run_id from hrun]
      exact hpath
    rw [load_congr_path _ _ _ hpath2,
        save_load_same s.store _ (ctxWf_set_index stepped _ hwf)]
    dsimp only
    rw [hidx]



/-- The (chat, step) retry-counter entry, when both keys are present. -/
def retryCountEntry (counts : List (Nat × List (String × Nat))) (chat : Nat)
    (step : String) : Option Nat :=
  match alookup chat counts with
  | none => none
  | some m => alookup step m

/-- A requirement as produced by the scenario-generation steps. -/
def exReq : Requirement :=
  ⟨"REQ-1", "Login page accepts valid credentials", some "high",
   some [("note", Value.str "smoke")]⟩

/-- A freshly initialized run context (initialize_pipeline shape). -/
def ctxA : RunContext := ⟨"r1", 0, none, []⟩

/-- A store holding only the run r1. -/
def storeA : MinioStore := save_context_to_minio ctxA []

/-- A one-step pipeline whose step always raises LLMError. -/
def stepsFailLLM : Steps := [("PII Masking", fun _ => Except.error StepError.llm)]

/-- A one-step pipeline whose step always raises StorageError. -/
def stepsFailStorage : Steps :=
  [("Generating Scenarios", fun _ => Except.error StepError.storage)]

/-- Chat 7 owns run r1; no retries recorded. -/
def stateA : SysState := ⟨storeA, [(7, "r1")], []⟩

/-- Chat 7 owns run r1 and the first step exhausted its three retries. -/
def stateC2 : SysState := ⟨storeA, [(7, "r1")], [(7, [("PII Masking", 3)])]⟩

/-- A completed run context for the one-step pipelines. -/
def ctxDone : RunContext := ⟨"r2", 1, none, []⟩

/-- A store holding only the completed run r2. -/
def storeDone : MinioStore := save_context_to_minio ctxDone []

/-- Chat 7 owns completed run r2 and has a leftover retry count. -/
def stateDone : SysState := ⟨storeDone, [(7, "r2")], [(7, [("PII Masking", 2)])]⟩

/-- A state with run r1 persisted but no owner bound (exactly the state left
behind by a fatal-error teardown). -/
def stateUnbound : SysState := ⟨storeA, [], []⟩

/-- C6: the backoff delay computed at src/bot/handlers.py line 256 is
base * 2 ^ attempt with base = 1 second, so attempts 0, 1, 2 sleep exactly
1, 2 and 4 seconds. -/
theorem c6_backoff_law :
    (∀ n : Nat, nextBackoffDelay n = 1 * 2 ^ n) ∧
    nextBackoffDelay 0 = 1 ∧ nextBackoffDelay 1 = 2 ∧ nextBackoffDelay 2 = 4 :=
  ⟨fun _ => rfl, rfl, rfl, rfl⟩

/-- C8: saving a context and loading its run_id returns the context field
for field, for every representable context (fields holding JSON values and
a Requirement list under the requirements key). -/
theorem c8_save_load_roundtrip (store : MinioStore) (ctx : RunContext) (h : ctxWf ctx) :
    load_context_from_minio (save_context_to_minio ctx store) ctx.run_id
      = LoadResult.found ctx :=
  save_load_same store ctx h

/-- C8 witness: the roundtrip at a concrete context carrying a Requirement
list and open fields. -/
theorem c8_save_load_roundtrip_witness :
    ctxWf ⟨"r9", 2, some [exReq], [("txt", Value.str "checklist")]⟩ ∧
    load_context_from_minio
        (save_context_to_minio ⟨"r9", 2, some [exReq], [("txt", Value.str "checklist")]⟩ storeA)
        "r9"
      = LoadResult.found ⟨"r9", 2, some [exReq], [("txt", Value.str "checklist")]⟩ :=
  ⟨by decide, c8_save_load_roundtrip storeA _ (by decide)⟩



/-- C1 counterexample: a non-retry Advance (isRetry = false) whose step
fails with the transient LLMError at attempt 0 < MaxRetries does not return
a retry signal; it tears the run down (the owner binding is removed and the
step retry counter is dropped), refuting the claim for isRetry = false. -/
theorem c1_counterexample :
    attemptsSoFar stateA.step_retry_counts 7 "PII Masking" = 0 ∧
    (run_next_step stepsFailLLM 7 "r1" false stateA).outcome
      = Outcome.stepFailed "PII Masking" StepError.llm ∧
    alookup 7 (run_next_step stepsFailLLM 7 "r1" false stateA).state.pipeline_runs = none :=
  ⟨rfl, rfl, rfl⟩

/-- C2: the code at the failing input.  With the retry count for the step
already at MaxRetries = 3, the next retry Advance reports exhaustion,
clears the owner binding and removes the step's retry counter, but the
context is NOT deleted: delete_context_from_minio is a no-op stub, so a
subsequent Load still finds the run instead of failing with NotFound. -/
theorem c2_exhaustion_context_survives :
    (run_next_step stepsFailLLM 7 "r1" true stateC2).outcome
      = Outcome.retriesExhausted "PII Masking" ∧
    alookup 7 (run_next_step stepsFailLLM 7 "r1" true stateC2).state.pipeline_runs = none ∧
    retryCountEntry (run_next_step stepsFailLLM 7 "r1" true stateC2).state.step_retry_counts
      7 "PII Masking" = none ∧
    load_context_from_minio (run_next_step stepsFailLLM 7 "r1" true stateC2).state.store "r1"
      = LoadResult.found ctxA :=
  ⟨rfl, rfl, rfl, rfl⟩

/-- C3 counterexample: an Advance during which a StorageError occurs (the
step function raises it) does not leave the run untouched: the owner's
binding is removed, refuting the claim. -/
theorem c3_counterexample :
    (run_next_step stepsFailStorage 7 "r1" false stateA).outcome
      = Outcome.stepFailed "Generating Scenarios" StepError.storage ∧
    alookup 7 (run_next_step stepsFailStorage 7 "r1" false stateA).state.pipeline_runs
      = none :=
  ⟨rfl, rfl⟩

/-- C4 counterexample: an Advance on a completed run (step_index = 1 = N)
leaves the owner's retry state fully intact and the context still loadable,
refuting the claim that retry state is cleared and the context deleted. -/
theorem c4_counterexample :
    (run_next_step stepsFailLLM 7 "r2" false stateDone).outcome = Outcome.alreadyCompleted ∧
    (run_next_step stepsFailLLM 7 "r2" false stateDone).state.step_retry_counts
      = [(7, [("PII Masking", 2)])] ∧
    load_context_from_minio (run_next_step stepsFailLLM 7 "r2" false stateDone).state.store "r2"
      = LoadResult.found ctxDone :=
  ⟨rfl, rfl, rfl⟩

/-- C9 counterexample: in the reachable state left behind by a fatal-error
teardown (context persisted, owner not bound), Cancel(7, r1) changes
nothing at all -- it does not delete the context, refuting the claim that
cancellation tears down unconditionally regardless of the owner's binding. -/
theorem c9_counterexample :
    (run_next_step stepsFailLLM 7 "r1" false stateA).state = stateUnbound ∧
    cancel_pipeline 7 "r1" stateUnbound
      = ⟨stateUnbound, Outcome.nothingToCancel, []⟩ ∧
    load_context_from_minio stateUnbound.store "r1" = LoadResult.found ctxA :=
  ⟨rfl, rfl, rfl⟩



theorem attemptsSoFar_setRetryCount (counts : List (Nat × List (String × Nat)))
    (chat : Nat) (step : String) (v : Nat) :
    attemptsSoFar (setRetryCount counts chat step v) chat step = v := by
  unfold attemptsSoFar setRetryCount
  rw [alookup_aset_self]
  dsimp only
  rw [alookup_aset_self]
  rfl

theorem attemptsSoFar_reset (counts : List (Nat × List (String × Nat)))
    (chat : Nat) (step : String) :
    attemptsSoFar (resetRetryIfPresent counts chat step) chat step = 0 := by
  unfold attemptsSoFar resetRetryIfPresent
  cases hc : alookup chat counts with
  | none => rw [hc]
  | some m =>
    cases hs : alookup step m with
    | none => simp [hc, hs]
    | some c => simp [hc, hs, alookup_aset_self]

/-- C1 amended: the claimed transient transition holds only for Advance
calls with isRetry = true.  On such a call, when the current step fails
with an error the handler catches while the attempt count is below
MaxRetries, the counter is incremented, the call sleeps exactly
NextBackoffDelay(attempt) (the delay carried by the outcome is the
time.sleep argument), a retry affordance is returned, the persisted context
is untouched and the run is not torn down (the owner stays bound). -/
theorem c1_transient_retry_on_retry_call (steps : Steps) (chat : Nat) (rid : String)
    (s : SysState) (ctx : RunContext) (name : String) (f : StepFn) (e : StepError)
    (attempt : Nat)
    (hload : load_context_from_minio s.store rid = LoadResult.found ctx)
    (hget : steps.get? ctx.step_index = some (name, f))
    (hattempt : attemptsSoFar s.step_retry_counts chat name = attempt)
    (hlt : attempt < maxRetries)
    (htrans : e = StepError.llm ∨ e = StepError.pipeline)
    (hfail : f ctx = Except.error e) :
    (run_next_step steps chat rid true s).outcome
      = Outcome.retryFailed name attempt (nextBackoffDelay attempt) e ∧
    (run_next_step steps chat rid true s).state.store = s.store ∧
    attemptsSoFar (run_next_step steps chat rid true s).state.step_retry_counts chat name
      = attempt + 1 ∧
    alookup chat (run_next_step steps chat rid true s).state.pipeline_runs = some rid := by
  subst hattempt
  unfold run_next_step
  rw [hload]
  dsimp only
  rw [hget]
  dsimp only
  rw [retry_step_err chat ctx name f
        { s with pipeline_runs := aset chat rid s.pipeline_runs } e hlt hfail]
  exact ⟨rfl, rfl, attemptsSoFar_setRetryCount _ _ _ _, alookup_aset_self _ _ _⟩

/-- C1 witness: the amended transition at a concrete one-step pipeline
whose step raises LLMError, at attempt 0. -/
theorem c1_transient_retry_on_retry_call_witness :
    load_context_from_minio stateA.store "r1" = LoadResult.found ctxA ∧
    stepsFailLLM.get? ctxA.step_index
      = some ("PII Masking", fun _ => Except.error StepError.llm) ∧
    attemptsSoFar stateA.step_retry_counts 7 "PII Masking" = 0 ∧
    0 < maxRetries ∧
    ((run_next_step stepsFailLLM 7 "r1" true stateA).outcome
        = Outcome.retryFailed "PII Masking" 0 (nextBackoffDelay 0) StepError.llm ∧
      (run_next_step stepsFailLLM 7 "r1" true stateA).state.store = stateA.store ∧
      attemptsSoFar (run_next_step stepsFailLLM 7 "r1" true stateA).state.step_retry_counts
        7 "PII Masking" = 0 + 1 ∧
      alookup 7 (run_next_step stepsFailLLM 7 "r1" true stateA).state.pipeline_runs
        = some "r1") :=
  ⟨rfl, rfl, rfl, by decide,
   c1_transient_retry_on_retry_call stepsFailLLM 7 "r1" stateA ctxA "PII Masking"
     (fun _ => Except.error StepError.llm) StepError.llm 0 rfl rfl rfl (by decide)
     (Or.inl rfl) rfl⟩



/-- C3 amended: the handlers do not treat StorageError specially -- it is
caught together with LLMError and PipelineError.  On a non-retry Advance
whose step raises StorageError the run IS torn down in memory (the owner's
binding and the step's retry counter are removed), the error is surfaced;
only the persisted context survives, because the context deletion is a
no-op, so re-running Advance with the same run_id still finds the state. -/
theorem c3_storage_error_tears_down (steps : Steps) (chat : Nat) (rid : String)
    (s : SysState) (ctx : RunContext) (name : String) (f : StepFn)
    (hload : load_context_from_minio s.store rid = LoadResult.found ctx)
    (hget : steps.get? ctx.step_index = some (name, f))
    (hfail : f ctx = Except.error StepError.storage) :
    (run_next_step steps chat rid false s).outcome
      = Outcome.stepFailed name StepError.storage ∧
    alookup chat (run_next_step steps chat rid false s).state.pipeline_runs = none ∧
    retryCountEntry (run_next_step steps chat rid false s).state.step_retry_counts chat name
      = retryCountEntry (deleteRetryIfPresent s.step_retry_counts chat name) chat name ∧
    (run_next_step steps chat rid false s).state.store = s.store ∧
    load_context_from_minio (run_next_step steps chat rid false s).state.store rid
      = LoadResult.found ctx := by
  unfold run_next_step
  rw [hload]
  dsimp only
  rw [hget]
  dsimp only
  rw [execute_step_err chat ctx name f
        { s with pipeline_runs := aset chat rid s.pipeline_runs } StepError.storage hfail]
  refine ⟨rfl, ?_, rfl, rfl, hload⟩
  exact alookup_aerase_self chat (aset chat rid s.pipeline_runs)

/-- C3 witness: the amended behavior at a concrete one-step pipeline whose
step raises StorageError. -/
theorem c3_storage_error_tears_down_witness :
    load_context_from_minio stateA.store "r1" = LoadResult.found ctxA ∧
    stepsFailStorage.get? ctxA.step_index
      = some ("Generating Scenarios", fun _ => Except.error StepError.storage) ∧
    ((run_next_step stepsFailStorage 7 "r1" false stateA).outcome
        = Outcome.stepFailed "Generating Scenarios" StepError.storage ∧
      alookup 7 (run_next_step stepsFailStorage 7 "r1" false stateA).state.pipeline_runs
        = none ∧
      retryCountEntry
          (run_next_step stepsFailStorage 7 "r1" false stateA).state.step_retry_counts
          7 "Generating Scenarios"
        = retryCountEntry (deleteRetryIfPresent stateA.step_retry_counts 7 "Generating Scenarios")
            7 "Generating Scenarios" ∧
      (run_next_step stepsFailStorage 7 "r1" false stateA).state.store = stateA.store ∧
      load_context_from_minio (run_next_step stepsFailStorage 7 "r1" false stateA).state.store
          "r1"
        = LoadResult.found ctxA) :=
  ⟨rfl, rfl,
   c3_storage_error_tears_down stepsFailStorage 7 "r1" stateA ctxA "Generating Scenarios"
     (fun _ => Except.error StepError.storage) rfl rfl rfl⟩

/-- C4 amended: an Advance on a run whose step_index is at or past the end
of the registry invokes no step function, reports completion, and clears
the owner's binding; but the context-delete call is a no-op (the context
remains loadable) and the owner's retry state is left untouched, not
cleared. -/
theorem c4_completed_no_step_no_cleanup (steps : Steps) (chat : Nat) (rid : String)
    (retry : Bool) (s : SysState) (ctx : RunContext)
    (hload : load_context_from_minio s.store rid = LoadResult.found ctx)
    (hdone : steps.length ≤ ctx.step_index) :
    (run_next_step steps chat rid retry s).outcome = Outcome.alreadyCompleted ∧
    (run_next_step steps chat rid retry s).invoked = [] ∧
    alookup chat (run_next_step steps chat rid retry s).state.pipeline_runs = none ∧
    (run_next_step steps chat rid retry s).state.store = s.store ∧
    (run_next_step steps chat rid retry s).state.step_retry_counts
      = s.step_retry_counts := by
  unfold run_next_step
  rw [hload]
  dsimp only
  rw [List.get?_eq_none.mpr hdone]
  exact ⟨rfl, rfl, alookup_aerase_self chat (aset chat rid s.pipeline_runs), rfl, rfl⟩

/-- C4 witness: the amended completion behavior at a concrete completed
run that still has a leftover retry count. -/
theorem c4_completed_no_step_no_cleanup_witness :
    load_context_from_minio stateDone.store "r2" = LoadResult.found ctxDone ∧
    stepsFailLLM.length ≤ ctxDone.step_index ∧
    ((run_next_step stepsFailLLM 7 "r2" false stateDone).outcome = Outcome.alreadyCompleted ∧
      (run_next_step stepsFailLLM 7 "r2" false stateDone).invoked = [] ∧
      alookup 7 (run_next_step stepsFailLLM 7 "r2" false stateDone).state.pipeline_runs
        = none ∧
      (run_next_step stepsFailLLM 7 "r2" false stateDone).state.store = stateDone.store ∧
      (run_next_step stepsFailLLM 7 "r2" false stateDone).state.step_retry_counts
        = stateDone.step_retry_counts) :=
  ⟨rfl, by decide,
   c4_completed_no_step_no_cleanup stepsFailLLM 7 "r2" false stateDone ctxDone rfl
     (by decide)⟩



/-- A one-step pipeline whose step succeeds without touching the
context. -/
def stepsOk : Steps := [("PII Masking", fun c => Except.ok c)]

/-- C5: when the current step returns success (and, on a retry call, the
attempt count is below MaxRetries so the step actually runs), the runner
persists the context with step_index = old step_index + 1 via Save, the
saved context is loadable (retained, not deleted), and the retry counter
for the step reads 0 afterwards. -/
theorem c5_success_advance (steps : Steps) (chat : Nat) (rid : String) (retry : Bool)
    (s : SysState) (ctx stepped : RunContext) (name : String) (f : StepFn)
    (hload : load_context_from_minio s.store rid = LoadResult.found ctx)
    (hget : steps.get? ctx.step_index = some (name, f))
    (hidx : stepped.step_index = ctx.step_index)
    (hwf : ctxWf stepped)
    (hsucc : f ctx = Except.ok stepped)
    (hretry : retry = true → attemptsSoFar s.step_retry_counts chat name < maxRetries) :
    (run_next_step steps chat rid retry s).outcome = Outcome.stepCompleted name ∧
    (run_next_step steps chat rid retry s).state.store
      = save_context_to_minio { stepped with step_index := ctx.step_index + 1 } s.store ∧
    load_context_from_minio (run_next_step steps chat rid retry s).state.store
        stepped.run_id
      = LoadResult.found { stepped with step_index := ctx.step_index + 1 } ∧
    attemptsSoFar (run_next_step steps chat rid retry s).state.step_retry_counts chat name
      = 0 := by
  unfold run_next_step
  rw [hload]
  dsimp only
  rw [hget]
  cases retry with
  | false =>
    dsimp only
    rw [execute_step_ok chat ctx stepped name f
          { s with pipeline_runs := aset chat rid s.pipeline_runs } hsucc]
    refine ⟨rfl, ?_, ?_, ?_⟩
    · dsimp only
      rw [hidx]
    · dsimp only
      rw [hidx]
      exact save_load_same s.store _ (ctxWf_set_index stepped _ hwf)
    · exact attemptsSoFar_reset _ _ _
  | true =>
    dsimp only
    rw [retry_step_ok chat ctx stepped name f
          { s with pipeline_runs := aset chat rid s.pipeline_runs } (hretry rfl) hsucc]
    refine ⟨rfl, ?_, ?_, ?_⟩
    · dsimp only
      rw [hidx]
    · dsimp only
      rw [hidx]
      exact save_load_same s.store _ (ctxWf_set_index stepped _ hwf)
    · exact attemptsSoFar_setRetryCount _ _ _ _

/-- C5 witness: a concrete successful advance through a one-step
pipeline. -/
theorem c5_success_advance_witness :
    load_context_from_minio stateA.store "r1" = LoadResult.found ctxA ∧
    stepsOk.get? ctxA.step_index = some ("PII Masking", fun c => Except.ok c) ∧
    ctxA.step_index = ctxA.step_index ∧
    ctxWf ctxA ∧
    ((run_next_step stepsOk 7 "r1" false stateA).outcome
        = Outcome.stepCompleted "PII Masking" ∧
      (run_next_step stepsOk 7 "r1" false stateA).state.store
        = save_context_to_minio { ctxA with step_index := ctxA.step_index + 1 }
            stateA.store ∧
      load_context_from_minio (run_next_step stepsOk 7 "r1" false stateA).state.store
          ctxA.run_id
        = LoadResult.found { ctxA with step_index := ctxA.step_index + 1 } ∧
      attemptsSoFar (run_next_step stepsOk 7 "r1" false stateA).state.step_retry_counts
        7 "PII Masking" = 0) :=
  ⟨rfl, rfl, rfl, by decide,
   c5_success_advance stepsOk 7 "r1" false stateA ctxA ctxA "PII Masking"
     (fun c => Except.ok c) rfl rfl rfl (by decide) rfl (fun h => nomatch h)⟩

/-- C9 amended: Cancel(owner, run_id) tears down only when the owner is
currently bound to exactly that run_id; it then clears the binding and all
of the owner's retry counters and calls the context deletion, which is a
no-op, so the stored context survives.  When the owner is not bound to that
run_id the call changes nothing at all.  Within the bound case the teardown
happens regardless of which step is in progress. -/
theorem c9_cancel_guarded (chat : Nat) (rid : String) (s : SysState) :
    (alookup chat s.pipeline_runs = some rid →
      alookup chat (cancel_pipeline chat rid s).state.pipeline_runs = none ∧
      alookup chat (cancel_pipeline chat rid s).state.step_retry_counts = none ∧
      (cancel_pipeline chat rid s).state.store = s.store ∧
      (cancel_pipeline chat rid s).outcome = Outcome.cancelled) ∧
    (¬ alookup chat s.pipeline_runs = some rid →
      cancel_pipeline chat rid s = ⟨s, Outcome.nothingToCancel, []⟩) := by
  constructor
  · intro hb
    unfold cancel_pipeline
    rw [if_pos hb]
    exact ⟨alookup_aerase_self _ _, alookup_aerase_self _ _, rfl, rfl⟩
  · intro hb
    unfold cancel_pipeline
    rw [if_neg hb]

/-- C9 witness: the guarded teardown at a concrete bound owner. -/
theorem c9_cancel_guarded_witness :
    alookup 7 stateA.pipeline_runs = some "r1" ∧
    (alookup 7 (cancel_pipeline 7 "r1" stateA).state.pipeline_runs = none ∧
      alookup 7 (cancel_pipeline 7 "r1" stateA).state.step_retry_counts = none ∧
      (cancel_pipeline 7 "r1" stateA).state.store = stateA.store ∧
      (cancel_pipeline 7 "r1" stateA).outcome = Outcome.cancelled) :=
  ⟨rfl, (c9_cancel_guarded 7 "r1" stateA).1 rfl⟩



theorem storeWf_nil : StoreWf [] := fun _ _ hp => nomatch hp

/-- A one-step pipeline whose step writes its output field and keeps
run_id and step_index, like the registered steps do. -/
def stepsWfOk : Steps :=
  [("Generating Scenarios", fun c =>
    Except.ok ⟨c.run_id, c.step_index, c.requirements, [("scenarios", Value.str "ok")]⟩)]

theorem stepsWfOk_wf : StepsWf stepsWfOk := by
  intro p hp c c' h
  rw [List.mem_singleton.mp hp] at h
  dsimp only at h
  cases h
  refine ⟨rfl, rfl, ?_⟩
  intro k hk
  simp at hk
  subst hk
  simp [reservedKeys]

/-- C7: the persisted step_index of a run is monotonically non-decreasing
across any sequence of operations of the core, and a successful Advance
increases it by exactly one.  The hypotheses say the registered steps keep
run_id and step_index (as every step under src/pipeline/steps/ does) and
that the store only holds documents saved under their own run_id. -/
theorem c7_monotonic_cursor (steps : Steps) (s : SysState) (rid : String) (i : Nat)
    (hsteps : StepsWf steps) (hstore : StoreWf s.store)
    (hi : persistedStepIndex s rid = some i) :
    (∀ ops : List Op, ∃ j, persistedStepIndex (runOps steps ops s) rid = some j ∧ i ≤ j) ∧
    (∀ chat retry name,
      (run_next_step steps chat rid retry s).outcome = Outcome.stepCompleted name →
      persistedStepIndex (run_next_step steps chat rid retry s).state rid = some (i + 1)) := by
  constructor
  · intro ops
    exact persisted_mono_ops steps hsteps ops s hstore rid i hi
  · intro chat retry name hout
    obtain ⟨i', hi', hafter⟩ :=
      advance_success_incr steps hsteps chat rid retry s hstore name hout
    rw [hi] at hi'
    cases hi'
    exact hafter

/-- C7 witness: the monotone cursor at a concrete pipeline, store and
run. -/
theorem c7_monotonic_cursor_witness :
    StepsWf stepsWfOk ∧
    StoreWf stateA.store ∧
    persistedStepIndex stateA "r1" = some 0 ∧
    ((∀ ops : List Op,
        ∃ j, persistedStepIndex (runOps stepsWfOk ops stateA) "r1" = some j ∧ 0 ≤ j) ∧
      (∀ chat retry name,
        (run_next_step stepsWfOk chat "r1" retry stateA).outcome
          = Outcome.stepCompleted name →
        persistedStepIndex (run_next_step stepsWfOk chat "r1" retry stateA).state "r1"
          = some (0 + 1))) :=
  ⟨stepsWfOk_wf, storeWf_save [] storeWf_nil ctxA (by decide), rfl,
   c7_monotonic_cursor stepsWfOk stateA "r1" 0 stepsWfOk_wf
     (storeWf_save [] storeWf_nil ctxA (by decide)) rfl⟩

/-- C10: the ContextStore delete operation is a no-op (the Python body is
pass), so no operation of the core ever removes a persisted context: after
any Advance, Cancel or Close the run's document is still found by Load, and
a non-retry Advance with that run_id runs the step at the persisted
step_index again, re-binding the owner on success. -/
theorem c10_delete_noop_and_resume (steps : Steps) (hsteps : StepsWf steps) :
    (∀ store rid, delete_context_from_minio store rid = store) ∧
    (∀ op s rid ctx, load_context_from_minio s.store rid = LoadResult.found ctx →
      ∃ ctx', load_context_from_minio (applyOp steps op s).state.store rid
        = LoadResult.found ctx') ∧
    (∀ chat rid s ctx name f, load_context_from_minio s.store rid = LoadResult.found ctx →
      steps.get? ctx.step_index = some (name, f) →
      (run_next_step steps chat rid false s).invoked = [name] ∧
      (∀ stepped, f ctx = Except.ok stepped →
        (run_next_step steps chat rid false s).outcome = Outcome.stepCompleted name ∧
        alookup chat (run_next_step steps chat rid false s).state.pipeline_runs
          = some rid)) := by
  refine ⟨fun _ _ => rfl, ?_, ?_⟩
  · intro op s rid ctx hload
    cases op with
    | cancel chat orid =>
      have hst : (cancel_pipeline chat orid s).state.store = s.store := by
        unfold cancel_pipeline; split <;> rfl
      rw [show applyOp steps (Op.cancel chat orid) s = cancel_pipeline chat orid s from rfl,
          hst]
      exact ⟨ctx, hload⟩
    | close chat orid =>
      have hst : (close_pipeline chat orid s).state.store = s.store := by
        unfold close_pipeline; split <;> rfl
      rw [show applyOp steps (Op.close chat orid) s = close_pipeline chat orid s from rfl,
          hst]
      exact ⟨ctx, hload⟩
    | advance chat orid retry =>
      rw [show applyOp steps (Op.advance chat orid retry) s
          = run_next_step steps chat orid retry s from rfl]
      rcases run_next_step_store steps chat orid retry s with
        hunch | ⟨ctxO, name, f, stepped, hloadO, hget, hf, hsave⟩
      · rw [hunch]
        exact ⟨ctx, hload⟩
      · rw [hsave]
        obtain ⟨_, _, hwf⟩ := hsteps _ (List.get?_mem hget) _ _ hf
        by_cases hp : getContextMinioPath rid
            = getContextMinioPath
                ({ stepped with step_index := stepped.step_index + 1 } : RunContext).run_id
        · refine ⟨{ stepped with step_index := stepped.step_index + 1 }, ?_⟩
          rw [load_congr_path _ _ _ hp]
          exact save_load_same s.store _ (ctxWf_set_index stepped _ hwf)
        · refine ⟨ctx, ?_⟩
          unfold load_context_from_minio save_context_to_minio
          rw [alookup_aset_of_ne _ _ hp]
          unfold load_context_from_minio at hload
          exact hload
  · intro chat rid s ctx name f hload hget
    constructor
    · unfold run_next_step
      rw [hload]
      dsimp only
      rw [hget]
      dsimp only
      cases hf : f ctx with
      | ok stepped =>
        rw [execute_step_ok chat ctx stepped name f
              { s with pipeline_runs := aset chat rid s.pipeline_runs } hf]
      | error e =>
        rw [execute_step_err chat ctx name f
              { s with pipeline_runs := aset chat rid s.pipeline_runs } e hf]
    · intro stepped hf
      unfold run_next_step
      rw [hload]
      dsimp only
      rw [hget]
      dsimp only
      rw [execute_step_ok chat ctx stepped name f
            { s with pipeline_runs := aset chat rid s.pipeline_runs } hf]
      exact ⟨rfl, alookup_aset_self _ _ _⟩

/-- C10 witness: delete is a no-op and a torn-down run resumes, at a
concrete pipeline and state. -/
theorem c10_delete_noop_and_resume_witness :
    StepsWf stepsWfOk ∧
    (∀ store rid, delete_context_from_minio store rid = store) ∧
    (∀ op s rid ctx, load_context_from_minio s.store rid = LoadResult.found ctx →
      ∃ ctx', load_context_from_minio (applyOp stepsWfOk op s).state.store rid
        = LoadResult.found ctx') ∧
    (∀ chat rid s ctx name f, load_context_from_minio s.store rid = LoadResult.found ctx →
      stepsWfOk.get? ctx.step_index = some (name, f) →
      (run_next_step stepsWfOk chat rid false s).invoked = [name] ∧
      (∀ stepped, f ctx = Except.ok stepped →
        (run_next_step stepsWfOk chat rid false s).outcome = Outcome.stepCompleted name ∧
        alookup chat (run_next_step stepsWfOk chat rid false s).state.pipeline_runs
          = some rid)) :=
  ⟨stepsWfOk_wf, c10_delete_noop_and_resume stepsWfOk stepsWfOk_wf⟩

end ChatopsQA
